import Mathlib

/-!
Verification of the variable-fonts asset pipeline (font processor, cache
manager, fallback metrics) against its natural-language specification.

The TypeScript sources are shallowly embedded: every function is translated
into an executable Lean definition over explicit environments standing for
the filesystem.  JavaScript strings are modelled by Lean strings (all data
in scope is ASCII); JavaScript `undefined` for optional values is modelled
by Option; JavaScript truthiness tests on strings/numbers are translated at
each use site (empty string and 0 are falsy).  Cryptographic digests
(md5 and sha256) are deterministic functions of their input bytes; md5 is
kept as an explicit function parameter and sha256 is modelled by its
preimage string (a collision-free idealization: equal inputs give equal
digests, and the claims' distinctness arguments are stated on the
normalized strings the code feeds to the digest).
-/

set_option maxRecDepth 4000

namespace VarFonts

/-! ## String utilities

All string manipulation is defined structurally over the underlying
character lists so that concrete runs reduce inside the kernel. -/

/-- Characters of a string. -/
def chars (s : String) : List Char := s.data

/-- String from characters. -/
def ofChars (cs : List Char) : String := String.mk cs

/-- Length in characters (all strings in scope are ASCII, so this agrees
with the JavaScript UTF-16 length). -/
def strLen (s : String) : Nat := s.data.length

/-- Split a character list at every occurrence of the separator, like
JavaScript String.prototype.split with a non-empty string separator.
Fueled structural recursion; the fuel is always at least the list length
so the fuel case is never hit. -/
def splitOnAuxC (sep : List Char) : Nat → List Char → List Char → List (List Char)
  | 0, acc, rest => [acc.reverse ++ rest]
  | _ + 1, acc, [] => [acc.reverse]
  | fuel + 1, acc, c :: cs =>
    if sep.isPrefixOf (c :: cs) then
      acc.reverse :: splitOnAuxC sep fuel [] ((c :: cs).drop sep.length)
    else
      splitOnAuxC sep fuel (c :: acc) cs

/-- JavaScript-style split of a string on a non-empty separator string. -/
def jsSplit (s sep : String) : List String :=
  (splitOnAuxC sep.data (s.data.length + 1) [] s.data).map ofChars

/-- Whether the pattern occurs as a substring, like
String.prototype.includes (only used with non-empty patterns). -/
def strIncludes (s pat : String) : Bool := (jsSplit s pat).length != 1

/-- Number of occurrences of a non-empty, non-overlapping pattern. -/
def countOccur (s pat : String) : Nat := (jsSplit s pat).length - 1

/-- Replace the first occurrence of a pattern, like
String.prototype.replace with a string pattern (which replaces only the
first match). -/
def replaceFirstC (pat repl : List Char) : List Char → List Char
  | [] => []
  | c :: cs =>
    if pat.isPrefixOf (c :: cs) then repl ++ (c :: cs).drop pat.length
    else c :: replaceFirstC pat repl cs

/-- JavaScript String.prototype.replace with string arguments. -/
def jsReplace (s pat repl : String) : String :=
  ofChars (replaceFirstC pat.data repl.data s.data)

/-- Whether the string starts with the given prefix. -/
def strStartsWith (s p : String) : Bool := p.data.isPrefixOf s.data

/-- Whether the string ends with the given suffix. -/
def strEndsWith (s p : String) : Bool := p.data.reverse.isPrefixOf s.data.reverse

/-- Drop the last n characters, like String.prototype.slice(0, -n) for
positive n. -/
def strDropRight (s : String) (n : Nat) : String :=
  ofChars (s.data.take (s.data.length - n))

/-- ASCII lower-casing, like String.prototype.toLowerCase on the ASCII
data in scope. -/
def jsToLower (s : String) : String := ofChars (s.data.map Char.toLower)

/-- Join a list of strings with a separator, like Array.prototype.join. -/
def joinSep (sep : String) : List String → String
  | [] => ""
  | [x] => x
  | x :: xs => x ++ sep ++ joinSep sep xs

/-- Replace every maximal run of whitespace by a single hyphen (the
regex replace of whitespace-plus by a hyphen). The flag records whether
we are inside a whitespace run. -/
def collapseWsAux : Bool → List Char → List Char
  | _, [] => []
  | inRun, c :: cs =>
    if c.isWhitespace then
      if inRun then collapseWsAux true cs else '-' :: collapseWsAux true cs
    else c :: collapseWsAux false cs

/-- family.toLowerCase().replace(whitespace-runs, hyphen): the slug used
for published file names and CSS identifiers. -/
def jsSlug (s : String) : String := ofChars (collapseWsAux false (jsToLower s).data)

/-- Base name of a path: the part after the last slash. -/
def basename (p : String) : String :=
  ofChars ((p.data.reverse.takeWhile (fun c => c ≠ '/')).reverse)

/-- The suffix of the character list starting at its last dot, if any. -/
def lastDotSuffix : List Char → Option (List Char)
  | [] => none
  | c :: cs =>
    match lastDotSuffix cs with
    | some e => some e
    | none => if c = '.' then some (c :: cs) else none

/-- Extension of a path, like Node's path.extname: from the last dot of
the base name, empty when there is no dot or the only dot is the leading
character. -/
def extname (p : String) : String :=
  match (basename p).data with
  | [] => ""
  | _ :: rest =>
    match lastDotSuffix rest with
    | some e => ofChars e
    | none => ""

/-- Leading decimal digits as a number, or none when there is no digit. -/
def digitsValue (cs : List Char) : Option Nat :=
  let ds := cs.takeWhile Char.isDigit
  if ds.isEmpty then none
  else some (ds.foldl (fun n c => n * 10 + (c.toNat - '0'.toNat)) 0)

/-- parseInt(s, 10): skip leading whitespace, optional sign, then the
longest digit prefix; none models NaN. -/
def jsParseInt (s : String) : Option Int :=
  match s.data.dropWhile Char.isWhitespace with
  | '+' :: rest => (digitsValue rest).map Int.ofNat
  | '-' :: rest => (digitsValue rest).map (fun n => -(n : Int))
  | rest => (digitsValue rest).map Int.ofNat

/-- Association lookup by string key (JavaScript object indexing with the
keys in insertion order). -/
def lookupStr {β : Type} (key : String) : List (String × β) → Option β
  | [] => none
  | (k, v) :: rest => if key = k then some v else lookupStr key rest

/-- Lexicographic code-unit comparison of character lists: the order
underlying JavaScript string sorting (and localeCompare on the ASCII
package names in scope). -/
def charLeB : List Char → List Char → Bool
  | [], _ => true
  | _ :: _, [] => false
  | a :: as, b :: bs =>
    if a.toNat < b.toNat then true
    else if b.toNat < a.toNat then false
    else charLeB as bs

/-- Code-unit comparison of strings. -/
def strLeB (a b : String) : Bool := charLeB a.data b.data

/-- Glob matching of a pattern against a file name: a star matches any
character sequence, a bracketed class matches one of the listed
characters, everything else is literal.  Fueled structural recursion on
pattern length plus name length. -/
def globMatchAux : Nat → List Char → List Char → Bool
  | 0, _, _ => false
  | _ + 1, [], s => s.isEmpty
  | fuel + 1, '*' :: ps, s =>
    globMatchAux fuel ps s ||
      (match s with
       | [] => false
       | _ :: s' => globMatchAux fuel ('*' :: ps) s')
  | fuel + 1, '[' :: ps, s =>
    let cls := ps.takeWhile (fun c => c ≠ ']')
    let rest := (ps.dropWhile (fun c => c ≠ ']')).drop 1
    (match s with
     | [] => false
     | c :: s' => cls.contains c && globMatchAux fuel rest s')
  | fuel + 1, p :: ps, s =>
    (match s with
     | [] => false
     | c :: s' => p == c && globMatchAux fuel ps s')

/-- Glob match of a pattern string against a candidate name. -/
def globMatch (pat name : String) : Bool :=
  globMatchAux (pat.data.length + name.data.length + 1) pat.data name.data

/-- JavaScript truthiness of an optional string: defined and non-empty. -/
def strTruthy : Option String → Bool
  | none => false
  | some s => !s.data.isEmpty

/-- value || dflt for an optional string (empty string is falsy). -/
def jsOrStr (v : Option String) (dflt : String) : String :=
  match v with
  | some s => if s.data.isEmpty then dflt else s
  | none => dflt

/-! ## Data model (types.ts)

Optional interface fields become Option; the undefined state of a missing
property is none. -/

/-- FontConfig from types.ts: one requested font family. -/
structure FontConfig where
  package : String
  family : String
  «variable» : Bool
  preload : Option Bool := none
  weights : Option (List Int) := none
  styles : Option (List String) := none
  subsets : Option (List String) := none
  axes : Option (List String) := none
  fallback : Option String := none
  display : Option String := none
  unicodeRanges : Option (List (String × String)) := none
  priority : Option Int := none
deriving DecidableEq

/-- One variable axis range from metadata (min, max, default). -/
structure AxisRange where
  min : Int
  max : Int
  default : Int
deriving DecidableEq

/-- FontMetadata from types.ts, as read from a package's metadata file.
The variable axes record is an association list in key order; fields are
Option to reflect the loosely validated JSON data. -/
structure FontMetadata where
  family : String := ""
  id : String := ""
  subsets : Option (List String) := none
  weights : Option (List Int) := none
  styles : Option (List String) := none
  variableAxes : Option (List (String × AxisRange)) := none
  unicodeRange : Option (List (String × String)) := none
deriving DecidableEq

/-- FontFile from types.ts: a resolved (and possibly published) file. -/
structure FontFile where
  path : String := ""
  fileName : String := ""
  subset : String := ""
  style : String := ""
  weight : Option Int := none
  «variable» : Bool := false
  url : Option String := none
  hash : Option String := none
  size : Option Nat := none
deriving DecidableEq

/-- ProcessedFont from types.ts: the per-font result record. -/
structure ProcessedFont where
  config : FontConfig
  metadata : FontMetadata
  files : List FontFile
  errors : List String
deriving DecidableEq

/-- CacheEntry from types.ts: the persisted cache snapshot. -/
structure CacheEntry where
  timestamp : Nat
  configHash : String
  fonts : List ProcessedFont
  version : String
deriving DecidableEq

/-- FallbackFontMetrics from types.ts. -/
structure FallbackFontMetrics where
  fallback : String
  sizeAdjust : String
  ascentOverride : String
  descentOverride : String
  lineGapOverride : String
deriving DecidableEq

/-- The ModuleOptions consumed by the font processor (fonts plus the
options the processor reads; caching options live in the cache manager). -/
structure ModuleOptions where
  fonts : List FontConfig
  outputDir : Option String := none
  display : Option String := none
  fallbacks : Option Bool := none
  customProperties : Option Bool := none
  utilities : Option Bool := none
deriving DecidableEq

/-- Truthiness of an optional boolean option. -/
def optTrue (o : Option Bool) : Bool := o.getD false

/-- The filesystem and package environment a pipeline run observes.  Each
field models one primitive the code calls: existsSync, glob.sync for the
version-suffixed pnpm directories, the two metadata file reads (already
JSON-parsed), directory listing of a files directory (glob over it),
statSync sizes and readFileSync contents. -/
structure Env where
  pathExists : String → Bool
  globSync : String → List String
  metadataJson : String → Option FontMetadata
  fontMetadataJson : String → Option FontMetadata
  listDir : String → List String
  fileSize : String → Nat
  content : String → List Nat

/-! ## FontProcessor: package location and metadata -/

/-- Stable sort of strings in ascending order (Array.prototype.sort on
an array of strings compares code units, which on ASCII data is the
lexicographic order below). -/
def sortStrings (l : List String) : List String :=
  List.insertionSort (fun a b : String => strLeB a b = true) l

/-- One step of resolvePackagePath: try each candidate path, first as a
literal directory, then (when it contains a star) as a glob pattern whose
lexicographically greatest match is taken (matches.sort().pop()). -/
def resolvePackagePathGo (env : Env) : List String → Option String
  | [] => none
  | path :: rest =>
    if env.pathExists path then some path
    else if strIncludes path ("*") then
      match (sortStrings (env.globSync path)).getLast? with
      | some m => some m
      | none => resolvePackagePathGo env rest
    else resolvePackagePathGo env rest

/-- FontProcessor.resolvePackagePath: candidate locations for a package
under node_modules, including the pnpm layouts (path.join is modelled by
slash concatenation; all paths in scope are already normalized). -/
def resolvePackagePath (env : Env) (projectRoot packageName : String) : Option String :=
  let possiblePaths :=
    [projectRoot ++ "/node_modules/" ++ packageName,
     projectRoot ++ "/node_modules/.pnpm/" ++ packageName ++ "@*/node_modules/" ++ packageName] ++
    (if strStartsWith packageName ("@") then
      [projectRoot ++ "/node_modules/.pnpm/" ++ jsReplace packageName ("/") ("+") ++
        "@*/node_modules/" ++ packageName]
     else [])
  resolvePackagePathGo env possiblePaths

/-- Merge of unicode-range records by object spread: metadata keys keep
their position (config values win on shared keys), new config keys are
appended in order. -/
def mergeRanges (base overrides : List (String × String)) : List (String × String) :=
  base.map (fun kv => (kv.1, (lookupStr kv.1 overrides).getD kv.2)) ++
    overrides.filter (fun kv => (lookupStr kv.1 base).isNone)

/-- FontProcessor.readFontMetadata: metadata.json enriched with the
config's unicode-range overrides; the font-metadata.json fallback is
returned unenriched (the source returns it before the enrichment step). -/
def readFontMetadata (env : Env) (packagePath : String) (fontConfig : FontConfig) :
    Option FontMetadata :=
  match env.metadataJson packagePath with
  | none => env.fontMetadataJson packagePath
  | some metadata =>
    some (match fontConfig.unicodeRanges with
      | some ranges =>
        { metadata with unicodeRange := some (mergeRanges (metadata.unicodeRange.getD []) ranges) }
      | none => metadata)

/-! ## FontProcessor: file resolution -/

/-- FontProcessor.buildFilePatterns: glob patterns per (subset, style
[, weight or axis set]) combination.  Variable fonts get the axes-joined
pattern plus one pattern per individual axis; Material Symbols packages
substitute the literal full token; static fonts get one pattern per
weight plus a wildcard-weight pattern.  Every pattern is then duplicated
with the woff extension (replace of the first woff2 occurrence). -/
def buildFilePatterns (config : FontConfig) (_metadata : FontMetadata)
    (subsets styles : List String) (weights : List Int) : List String :=
  let patterns : List String :=
    if config.«variable» then
      let axes := config.axes.getD [("wght" : String)]
      if strIncludes config.package ("material-symbols") then
        subsets.foldl (fun acc subset =>
          styles.foldl (fun acc style =>
            acc ++ ["*-" ++ subset ++ "-full-" ++ style ++ ".woff2",
                    "*-" ++ subset ++ "[*]-" ++ style ++ ".woff2"]) acc) []
      else
        let axesPattern := joinSep ("-") axes
        subsets.foldl (fun acc subset =>
          styles.foldl (fun acc style =>
            (acc ++ ["*-" ++ subset ++ "-" ++ axesPattern ++ "-" ++ style ++ ".woff2"]) ++
              axes.map (fun axis => "*-" ++ subset ++ "-" ++ axis ++ "-" ++ style ++ ".woff2"))
            acc) []
    else
      subsets.foldl (fun acc subset =>
        styles.foldl (fun acc style =>
          (acc ++ weights.map (fun weight =>
            "*-" ++ subset ++ "-" ++ toString weight ++ "-" ++ style ++ ".woff2")) ++
            ["*-" ++ subset ++ "-*-" ++ style ++ ".woff2"]) acc) []
  patterns ++ patterns.map (fun p => jsReplace p (".woff2") (".woff"))

/-- FontProcessor.parseFileName: strip the extension, split on hyphens,
read style, subset and (static fonts only) integer weight from the last,
third-from-last and second-from-last fields; reject unknown extensions
and names with fewer than three fields. -/
def parseFileName (config : FontConfig) (filePath : String) : Option FontFile :=
  let fileName := basename filePath
  let ext := extname fileName
  if ¬ (ext = ".woff" ∨ ext = ".woff2") then none
  else
    let parts := jsSplit (strDropRight fileName (strLen ext)) ("-")
    if parts.length < 3 then none
    else
      let style := (parts.getD (parts.length - 1) "")
      let subset := (parts.getD (parts.length - 3) "")
      let weight : Option Int :=
        if ¬ config.«variable» then jsParseInt (parts.getD (parts.length - 2) "")
        else none
      some { fileName := fileName, subset := subset, style := style,
             weight := weight, «variable» := config.«variable» }

/-- The sort comparator of findFontFiles, literally: latin subsets first,
then normal styles first, otherwise equal. -/
def fontFileCompare (a b : FontFile) : Int :=
  if a.subset = "latin" ∧ b.subset ≠ "latin" then -1
  else if a.subset ≠ "latin" ∧ b.subset = "latin" then 1
  else if a.style = "normal" ∧ b.style ≠ "normal" then -1
  else if a.style ≠ "normal" ∧ b.style = "normal" then 1
  else 0

/-- Array.prototype.sort with the comparator above: a stable sort in which
a precedes b whenever the comparator is nonpositive. -/
def sortFontFiles (files : List FontFile) : List FontFile :=
  List.insertionSort (fun a b => fontFileCompare a b ≤ 0) files

/-- FontProcessor.findFontFiles: fail when the files directory is absent,
take effective subsets/styles/weights (config over metadata over the
latin/normal/400 defaults, by JavaScript or-chains on possibly undefined
arrays), match every pattern against the directory, parse each match and
attach path and size, then sort. -/
def findFontFiles (env : Env) (packagePath : String) (config : FontConfig)
    (metadata : FontMetadata) : Except String (List FontFile) :=
  let filesDir := packagePath ++ "/files"
  if ¬ env.pathExists filesDir then
    Except.error ("No files directory found in " ++ packagePath)
  else
    let subsets := (config.subsets <|> metadata.subsets).getD [("latin" : String)]
    let styles := (config.styles <|> metadata.styles).getD [("normal" : String)]
    let weights := (config.weights <|> metadata.weights).getD [(400 : Int)]
    let patterns := buildFilePatterns config metadata subsets styles weights
    let files := patterns.foldl (fun files pattern =>
      let foundFiles := (env.listDir filesDir).filter (fun name => globMatch pattern name)
      foundFiles.foldl (fun files name =>
        let filePath := filesDir ++ "/" ++ name
        match parseFileName config filePath with
        | some fileInfo =>
          files ++ [{ fileInfo with path := filePath, size := some (env.fileSize filePath) }]
        | none => files) files) []
    Except.ok (sortFontFiles files)

/-! ## FontProcessor: publishing -/

/-- FontProcessor.copyFontFiles: per file, hash the content (md5 is the
function parameter md5hex8, standing for the hex digest truncated to 8
characters), build the slug-subset-style-hash name, copy to the output
directory (a filesystem effect outside the pure result) and record the
public URL under the literal /fonts/ prefix together with the hash. -/
def copyFontFiles (md5hex8 : List Nat → String) (content : String → List Nat)
    (outputDir : String) (files : List FontFile) (family : String) : List FontFile :=
  files.foldl (fun copiedFiles file =>
    let fileContent := content file.path
    let hash := md5hex8 fileContent
    let safeFamilyName := jsSlug family
    let hashedName := safeFamilyName ++ "-" ++ file.subset ++ "-" ++ file.style ++ "-" ++
      hash ++ extname file.fileName
    let _destPath := outputDir ++ "/" ++ hashedName
    copiedFiles ++ [{ file with url := some ("/fonts/" ++ hashedName), hash := some hash }])
    []

/-! ## FontProcessor: orchestration -/

/-- The output directory from the constructor:
join(projectRoot, options.outputDir or the public/fonts default). -/
def resolveOutputDir (projectRoot : String) (options : ModuleOptions) : String :=
  projectRoot ++ "/" ++ jsOrStr options.outputDir ("public/fonts")

/-- FontProcessor.processFont: locate the package, read metadata, resolve
files (an empty resolution is an error), publish.  Each throw of the source
is an Except.error with the source's message. -/
def processFont (env : Env) (md5hex8 : List Nat → String) (projectRoot : String)
    (options : ModuleOptions) (fontConfig : FontConfig) : Except String ProcessedFont :=
  match resolvePackagePath env projectRoot fontConfig.package with
  | none =>
    Except.error ("Package " ++ fontConfig.package ++ " not found. " ++
      "Please install it with: npm install " ++ fontConfig.package)
  | some packagePath =>
    match readFontMetadata env packagePath fontConfig with
    | none => Except.error ("No metadata found for " ++ fontConfig.package)
    | some metadata =>
      match findFontFiles env packagePath fontConfig metadata with
      | Except.error e => Except.error e
      | Except.ok fontFiles =>
        if fontFiles.length = 0 then
          Except.error ("No font files found for " ++ fontConfig.package ++
            " with the specified configuration. " ++
            "Check your subsets, styles, and axes settings.")
        else
          Except.ok { config := fontConfig, metadata := metadata,
                      files := copyFontFiles md5hex8 env.content
                        (resolveOutputDir projectRoot options) fontFiles metadata.family,
                      errors := [] }

/-- priority || 0 of a font config. -/
def priorityOf (c : FontConfig) : Int := c.priority.getD 0

/-- The processAll priority comparator (b.priority || 0) minus
(a.priority || 0). -/
def fontPriorityCompare (a b : FontConfig) : Int := priorityOf b - priorityOf a

/-- Stable descending-priority sort of the configured fonts. -/
def sortByPriorityDesc (fonts : List FontConfig) : List FontConfig :=
  List.insertionSort (fun a b => fontPriorityCompare a b ≤ 0) fonts

/-- The failed entry pushed by processAll's catch handler: empty metadata
object, no files, the thrown message as the single error. -/
def failedEntry (fontConfig : FontConfig) (e : String) : ProcessedFont :=
  { config := fontConfig, metadata := {}, files := [], errors := [e] }

/-- FontProcessor.processAll: sort by priority, process each font in
order, catching any per-font error into a failed entry. -/
def processAll (env : Env) (md5hex8 : List Nat → String) (projectRoot : String)
    (options : ModuleOptions) : List ProcessedFont :=
  let sortedFonts := sortByPriorityDesc options.fonts
  sortedFonts.foldl (fun processedFonts fontConfig =>
    match processFont env md5hex8 projectRoot options fontConfig with
    | Except.ok result => processedFonts ++ [result]
    | Except.error e => processedFonts ++ [failedEntry fontConfig e]) []

/-! ## Stylesheet generation (the face blocks the claims inspect)

CSS braces are written with hex escapes and apostrophes with the x27
escape; the strings are byte-for-byte the generated output. -/

/-- JavaScript template interpolation of a possibly undefined string. -/
def jsShow (o : Option String) : String := o.getD "undefined"

/-- The wght axis record of the metadata, when present
(metadata.variable?.axes?.wght). -/
def axisFor (metadata : FontMetadata) (tag : String) : Option AxisRange :=
  lookupStr tag (metadata.variableAxes.getD [])

/-- The predefined unicode ranges of getUnicodeRange. -/
def predefinedRanges : List (String × String) :=
  [("latin",
    "U+0000-00FF, U+0131, U+0152-0153, U+02BB-02BC, U+02C6, U+02DA, U+02DC, U+0304, U+0308, U+0329, U+2000-206F, U+2074, U+20AC, U+2122, U+2191, U+2193, U+2212, U+2215, U+FEFF, U+FFFD"),
   ("latin-ext",
    "U+0100-02AF, U+0304, U+0308, U+0329, U+1E00-1E9F, U+1EF2-1EFF, U+2020, U+20A0-20AB, U+20AD-20C0, U+2113, U+2C60-2C7F, U+A720-A7FF"),
   ("cyrillic", "U+0301, U+0400-045F, U+0490-0491, U+04B0-04B1, U+2116"),
   ("cyrillic-ext", "U+0460-052F, U+1C80-1C88, U+20B4, U+2DE0-2DFF, U+A640-A69F, U+FE2E-FE2F"),
   ("greek", "U+0370-0377, U+037A-037F, U+0384-038A, U+038C, U+038E-03A1, U+03A3-03FF"),
   ("greek-ext", "U+1F00-1FFF"),
   ("vietnamese",
    "U+0102-0103, U+0110-0111, U+0128-0129, U+0168-0169, U+01A0-01A1, U+01AF-01B0, U+0300-0301, U+0303-0304, U+0308-0309, U+0323, U+0329, U+1EA0-1EF9, U+20AB"),
   ("arabic", "U+0600-06FF, U+200C-200E, U+2010-2011, U+204F, U+2E41, U+FB50-FDFF, U+FE80-FEFC"),
   ("hebrew", "U+0590-05FF, U+200C-2010, U+20AA, U+25CC, U+FB1D-FB4F"),
   ("thai",
    "U+0E01-0E5B, U+200C-200D, U+2013-2014, U+2018-2019, U+201C-201D, U+2022, U+2026, U+2039-203A, U+2060, U+2066-2069, U+207F, U+20A8, U+2219, U+25CC")]

/-- FontProcessor.getUnicodeRange: metadata override for the subset when
truthy, else the predefined table entry or null. -/
def getUnicodeRange (metadata : FontMetadata) (subset : String) : Option String :=
  match lookupStr subset (metadata.unicodeRange.getD []) with
  | some r => if r.data.isEmpty then lookupStr subset predefinedRanges else some r
  | none => lookupStr subset predefinedRanges

/-- FontProcessor.generateSingleFontFace: one font-face block for one
published file. -/
def generateSingleFontFace (options : ModuleOptions) (font : ProcessedFont)
    (file : FontFile) : String :=
  let config := font.config
  let metadata := font.metadata
  let display := jsOrStr config.display (jsOrStr options.display ("swap"))
  let isIcon := strIncludes config.package ("icon") || strIncludes config.package ("symbols")
  let css := "@font-face \x7b\n"
  let css := css ++ "  font-family: \x27" ++ metadata.family ++ "\x27;\n"
  let css := css ++ "  font-style: " ++ file.style ++ ";\n"
  let css := css ++ "  font-display: " ++ (if isIcon then "block" else display) ++ ";\n"
  let css := css ++
    (match (if config.«variable» then axisFor metadata ("wght") else none) with
     | some r => "  font-weight: " ++ toString r.min ++ " " ++ toString r.max ++ ";\n"
     | none =>
       match file.weight with
       | some w => if w ≠ 0 then "  font-weight: " ++ toString w ++ ";\n"
                   else "  font-weight: 400;\n"
       | none => "  font-weight: 400;\n")
  let format := if strEndsWith file.fileName (".woff2") then "woff2" else "woff"
  let formatHint := if config.«variable» then format ++ "-variations" else format
  let css := css ++ "  src: url(\x27" ++ jsShow file.url ++ "\x27) format(\x27" ++
    formatHint ++ "\x27);\n"
  let css := css ++
    (match getUnicodeRange metadata file.subset with
     | some unicodeRange => "  unicode-range: " ++ unicodeRange ++ ";\n"
     | none => "")
  css ++ "\x7d\n\n"

/-! ## Fallback metrics -/

/-- The curated fallback metrics table of fallback-metrics.ts, keyed by
family name. -/
def fallbackMetrics : List (String × FallbackFontMetrics) :=
  let arial : String := "Arial, Helvetica Neue, Helvetica, sans-serif"
  let georgia : String := "Georgia, Times New Roman, Times, serif"
  let courier : String := "Courier New, Courier, monospace"
  let arialNarrow : String := "Arial Narrow, Arial, sans-serif"
  let system : String := "-apple-system, BlinkMacSystemFont, Segoe UI, Helvetica, Arial, sans-serif"
  let iconMetrics : FallbackFontMetrics :=
    { fallback := "sans-serif", sizeAdjust := "100%", ascentOverride := "normal",
      descentOverride := "normal", lineGapOverride := "normal" }
  [("Montserrat", ⟨arial, "106.25%", "95%", "23%", "0%"⟩),
   ("Montserrat Variable", ⟨arial, "106.25%", "95%", "23%", "0%"⟩),
   ("Inter", ⟨arial, "107.5%", "90%", "22.5%", "0%"⟩),
   ("Inter Variable", ⟨arial, "107.5%", "90%", "22.5%", "0%"⟩),
   ("Roboto", ⟨arial, "100.3%", "92.7%", "24.4%", "0%"⟩),
   ("Open Sans", ⟨arial, "104.5%", "93%", "24.3%", "0%"⟩),
   ("Open Sans Variable", ⟨arial, "104.5%", "93%", "24.3%", "0%"⟩),
   ("Raleway", ⟨arial, "105.2%", "94.2%", "23.1%", "0%"⟩),
   ("Raleway Variable", ⟨arial, "105.2%", "94.2%", "23.1%", "0%"⟩),
   ("Poppins", ⟨arial, "111.5%", "91%", "21.5%", "0%"⟩),
   ("Source Sans Pro", ⟨arial, "101.2%", "91.8%", "23.8%", "0%"⟩),
   ("Source Sans 3", ⟨arial, "101.2%", "91.8%", "23.8%", "0%"⟩),
   ("Source Sans 3 Variable", ⟨arial, "101.2%", "91.8%", "23.8%", "0%"⟩),
   ("Lora", ⟨georgia, "97.5%", "93%", "25%", "0%"⟩),
   ("Lora Variable", ⟨georgia, "97.5%", "93%", "25%", "0%"⟩),
   ("Merriweather", ⟨georgia, "92.3%", "96.5%", "26.8%", "0%"⟩),
   ("Playfair Display", ⟨georgia, "108.7%", "88%", "22%", "0%"⟩),
   ("Playfair Display Variable", ⟨georgia, "108.7%", "88%", "22%", "0%"⟩),
   ("PT Serif", ⟨georgia, "98.6%", "91.5%", "24.5%", "0%"⟩),
   ("Noto Serif", ⟨georgia, "101.1%", "91%", "24%", "0%"⟩),
   ("Crimson Text", ⟨georgia, "93.8%", "94.5%", "26.2%", "0%"⟩),
   ("Fira Code", ⟨courier, "97.5%", "95%", "24%", "0%"⟩),
   ("Fira Code Variable", ⟨courier, "97.5%", "95%", "24%", "0%"⟩),
   ("JetBrains Mono", ⟨courier, "95.3%", "96.8%", "25.2%", "0%"⟩),
   ("JetBrains Mono Variable", ⟨courier, "95.3%", "96.8%", "25.2%", "0%"⟩),
   ("Source Code Pro", ⟨courier, "96.8%", "94.2%", "24.8%", "0%"⟩),
   ("Source Code Variable", ⟨courier, "96.8%", "94.2%", "24.8%", "0%"⟩),
   ("Roboto Mono", ⟨courier, "99.2%", "93.5%", "24.5%", "0%"⟩),
   ("IBM Plex Mono", ⟨courier, "98.5%", "94%", "25%", "0%"⟩),
   ("Bebas Neue", ⟨arialNarrow, "119.5%", "82%", "16%", "0%"⟩),
   ("Oswald", ⟨arialNarrow, "105.8%", "92.5%", "20.5%", "0%"⟩),
   ("Oswald Variable", ⟨arialNarrow, "105.8%", "92.5%", "20.5%", "0%"⟩),
   ("DM Sans", ⟨system, "102.3%", "92%", "24%", "0%"⟩),
   ("DM Sans Variable", ⟨system, "102.3%", "92%", "24%", "0%"⟩),
   ("Work Sans", ⟨system, "103.8%", "91.5%", "23.5%", "0%"⟩),
   ("Work Sans Variable", ⟨system, "103.8%", "91.5%", "23.5%", "0%"⟩),
   ("Material Icons", iconMetrics),
   ("Material Icons Rounded", iconMetrics),
   ("Material Symbols Rounded", iconMetrics),
   ("Material Symbols Rounded Variable", iconMetrics),
   ("Font Awesome", iconMetrics)]

/-- getFallbackMetricsForFont from fallback-metrics.ts: exact table
match, then a match after stripping the first Variable suffix, then
keyword category defaults (mono/code, serif without sans, icon/symbols,
generic sans-serif); a truthy custom fallback replaces the fallback
stack in every branch. -/
def getFallbackMetricsForFont (fontFamily : String) (customFallback : Option String) :
    FallbackFontMetrics :=
  match lookupStr fontFamily fallbackMetrics with
  | some m =>
    if strTruthy customFallback then { m with fallback := jsShow customFallback } else m
  | none =>
    let baseFamily := jsReplace fontFamily (" Variable") ("")
    match lookupStr baseFamily fallbackMetrics with
    | some m =>
      if strTruthy customFallback then { m with fallback := jsShow customFallback } else m
    | none =>
      let lowerFamily := jsToLower fontFamily
      if strIncludes lowerFamily ("mono") || strIncludes lowerFamily ("code") then
        { fallback := jsOrStr customFallback ("Courier New, Courier, monospace"),
          sizeAdjust := "98%", ascentOverride := "94%", descentOverride := "25%",
          lineGapOverride := "0%" }
      else if strIncludes lowerFamily ("serif") && !strIncludes lowerFamily ("sans") then
        { fallback := jsOrStr customFallback ("Georgia, Times New Roman, Times, serif"),
          sizeAdjust := "100%", ascentOverride := "92%", descentOverride := "25%",
          lineGapOverride := "0%" }
      else if strIncludes lowerFamily ("icon") || strIncludes lowerFamily ("symbols") then
        { fallback := jsOrStr customFallback ("sans-serif"),
          sizeAdjust := "100%", ascentOverride := "normal", descentOverride := "normal",
          lineGapOverride := "normal" }
      else
        { fallback := jsOrStr customFallback ("Arial, Helvetica, sans-serif"),
          sizeAdjust := "100%", ascentOverride := "93%", descentOverride := "24%",
          lineGapOverride := "0%" }

/-- FontProcessor.getFallbackMetrics (the processor's own, simpler
lookup): exact table match (ignoring any custom fallback), else
serif-keyword category defaults where a truthy custom fallback wins. -/
def processorGetFallbackMetrics (family : String) (customFallback : Option String) :
    FallbackFontMetrics :=
  match lookupStr family fallbackMetrics with
  | some m => m
  | none =>
    let category := if strIncludes (jsToLower family) ("serif") then "serif" else "sans-serif"
    { fallback := jsOrStr customFallback
        (if category = "serif" then "Georgia, serif" else "Arial, sans-serif"),
      sizeAdjust := "100%", ascentOverride := "normal", descentOverride := "normal",
      lineGapOverride := "0%" }

/-- FontProcessor.generateFallbackFont: the synthetic Fallback face. -/
def generateFallbackFont (font : ProcessedFont) : String :=
  let metrics := processorGetFallbackMetrics font.metadata.family font.config.fallback
  let css := "/* Fallback font for " ++ font.metadata.family ++ " */\n"
  let css := css ++ "@font-face \x7b\n"
  let css := css ++ "  font-family: \x27" ++ font.metadata.family ++ " Fallback\x27;\n"
  let css := css ++ "  src: local(\x27" ++ metrics.fallback ++ "\x27);\n"
  let css := css ++ "  size-adjust: " ++ metrics.sizeAdjust ++ ";\n"
  let css := css ++ "  ascent-override: " ++ metrics.ascentOverride ++ ";\n"
  let css := css ++ "  descent-override: " ++ metrics.descentOverride ++ ";\n"
  let css := css ++ "  line-gap-override: " ++ metrics.lineGapOverride ++ ";\n"
  css ++ "\x7d\n\n"

/-- FontProcessor.generateFontFaces: error fonts become a comment, other
fonts get one block per file plus, for variable fonts when the fallbacks
option is on, the synthetic fallback face. -/
def generateFontFaces (options : ModuleOptions) (results : List ProcessedFont) : String :=
  results.foldl (fun css font =>
    if font.errors ≠ [] then
      css ++ "/* Error processing " ++ font.config.family ++ ": " ++
        joinSep (", ") font.errors ++ " */\n\n"
    else
      let css := css ++ "/* " ++ font.metadata.family ++ " - " ++ font.config.package ++ " */\n"
      let css := font.files.foldl (fun css file =>
        css ++ generateSingleFontFace options font file) css
      let css := if optTrue options.fallbacks && font.config.«variable» then
          css ++ generateFallbackFont font
        else css
      css ++ "\n") ""

/-! ## CacheManager

generateConfigHash feeds a normalized JSON string to sha256.  The digest
is modelled by its preimage string: the digest is a deterministic
function of the string, so equal strings give equal digests, and the
code's inequality tests are stated on the strings themselves (a
collision-free idealization of sha256). -/

/-- The normalized projection of one font config hashed by
generateConfigHash; note that the fallback and unicodeRanges fields of
the config are not part of it. -/
structure NormalizedEntry where
  package : String
  family : String
  «variable» : Bool
  weights : Option (List Int)
  styles : Option (List String)
  subsets : Option (List String)
  axes : Option (List String)
  preload : Option Bool
  display : Option String
  priority : Option Int
deriving DecidableEq

/-- Ascending stable sort of numbers.  Array.prototype.sort without a
comparator orders by the decimal string representation; on the weight
lists in scope both orders are total, so the numeric order is used (every
claim below depends only on the result being a function of the multiset,
which holds for either order). -/
def sortInts (l : List Int) : List Int :=
  List.insertionSort (fun a b : Int => a ≤ b) l

/-- weights?.sort() and friends: sort the array when it is defined. -/
def sortedOptInts (o : Option (List Int)) : Option (List Int) := o.map sortInts

/-- styles?.sort(), subsets?.sort(), axes?.sort(). -/
def sortedOptStrs (o : Option (List String)) : Option (List String) := o.map sortStrings

/-- The per-font map step of generateConfigHash. -/
def normalizeEntry (font : FontConfig) : NormalizedEntry :=
  { package := font.package, family := font.family, «variable» := font.«variable»,
    weights := sortedOptInts font.weights, styles := sortedOptStrs font.styles,
    subsets := sortedOptStrs font.subsets, axes := sortedOptStrs font.axes,
    preload := font.preload, display := font.display, priority := font.priority }

/-- configData.sort comparing package names (localeCompare is modelled by
the code-unit order, which agrees on the ASCII package names in scope;
any fixed total order gives the same invariance properties). -/
def sortNormalized (l : List NormalizedEntry) : List NormalizedEntry :=
  List.insertionSort (fun a b : NormalizedEntry => strLeB a.package b.package = true) l

/-- JSON string escaping (quote and backslash; the data in scope has no
control characters). -/
def jsonEscape (s : String) : String :=
  ofChars (s.data.foldr (fun c acc =>
    if c = '"' ∨ c = '\\' then '\\' :: c :: acc else c :: acc) [])

/-- A JSON string literal. -/
def jsonStr (s : String) : String := "\"" ++ jsonEscape s ++ "\""

/-- A JSON member for an optional value, omitted (as JSON.stringify omits
undefined-valued properties) when absent. -/
def jsonOptMember (key : String) (v : Option String) : List String :=
  match v with
  | some s => [jsonStr key ++ ":" ++ s]
  | none => []

/-- JSON.stringify of one normalized entry, with the members in the
object-literal order of the source and undefined members omitted. -/
def entryJson (e : NormalizedEntry) : String :=
  let members :=
    [jsonStr ("package") ++ ":" ++ jsonStr e.package,
     jsonStr ("family") ++ ":" ++ jsonStr e.family,
     jsonStr ("variable") ++ ":" ++ (if e.«variable» then "true" else "false")] ++
    jsonOptMember ("weights")
      (e.weights.map (fun l => "[" ++ joinSep (",") (l.map toString) ++ "]")) ++
    jsonOptMember ("styles")
      (e.styles.map (fun l => "[" ++ joinSep (",") (l.map jsonStr) ++ "]")) ++
    jsonOptMember ("subsets")
      (e.subsets.map (fun l => "[" ++ joinSep (",") (l.map jsonStr) ++ "]")) ++
    jsonOptMember ("axes")
      (e.axes.map (fun l => "[" ++ joinSep (",") (l.map jsonStr) ++ "]")) ++
    jsonOptMember ("preload") (e.preload.map (fun b => if b then "true" else "false")) ++
    jsonOptMember ("display") (e.display.map jsonStr) ++
    jsonOptMember ("priority") (e.priority.map toString)
  "\x7b" ++ joinSep (",") members ++ "\x7d"

/-- CacheManager.generateConfigHash: normalize every config, sort by
package name, serialize; the sha256 hex digest is modelled by the
serialized string itself. -/
def generateConfigHash (fonts : List FontConfig) : String :=
  let configData := fonts.map normalizeEntry
  let sorted := sortNormalized configData
  "[" ++ joinSep (",") (sorted.map entryJson) ++ "]"

/-- The environment a cache validity check observes: the parsed cache
file (none when missing or unreadable), the clock, the metadata file
modification times per package (none when no metadata path resolves),
file existence, and the cache file's own modification time. -/
structure CacheEnv where
  cacheFile : Option CacheEntry
  now : Nat
  metadataMtime : String → Option Nat
  fileExists : String → Bool
  cacheFileMtime : Nat

/-- CacheManager.checkFilesModified: a cached font (skipping failed
entries) is modified when its package's metadata file is newer than the
cache file plus the one-second tolerance, or one of its files no longer
exists (the path guard models the JavaScript truthiness test on the
path). -/
def checkFilesModified (env : CacheEnv) (cachedFonts : List ProcessedFont) : Bool :=
  cachedFonts.any (fun font =>
    if font.errors ≠ [] then false
    else
      (match env.metadataMtime font.config.package with
       | some metadataTime => decide (metadataTime > env.cacheFileMtime + 1000)
       | none => false) ||
      font.files.any (fun file => !file.path.data.isEmpty && !env.fileExists file.path))

/-- CacheManager.isCacheValid: missing cache, version mismatch, TTL
expiry, configuration hash mismatch or modified files each invalidate;
otherwise the cache is valid.  The module version is the source's
constant; the age comparison uses truncated subtraction, which agrees
with the JavaScript comparison whenever the snapshot is not from the
future. -/
def isCacheValid (env : CacheEnv) (ttl : Nat) (fonts : List FontConfig) : Bool :=
  match env.cacheFile with
  | none => false
  | some cache =>
    if cache.version ≠ "1.0.0" then false
    else if env.now - cache.timestamp > ttl then false
    else if generateConfigHash fonts ≠ cache.configHash then false
    else if checkFilesModified env cache.fonts then false
    else true

/-- Relativize one path against the project root (process.cwd). -/
def makeRelativePath (projectRoot absolutePath : String) : String :=
  if strStartsWith absolutePath projectRoot then
    ofChars (absolutePath.data.drop (projectRoot.data.length + 1))
  else absolutePath

/-- CacheManager.sanitizeResults: store relative file paths. -/
def sanitizeResults (projectRoot : String) (results : List ProcessedFont) :
    List ProcessedFont :=
  results.map (fun result =>
    { result with files := result.files.map (fun file =>
        { file with path := makeRelativePath projectRoot file.path }) })

/-- The cache entry written by CacheManager.updateCache. -/
def updateCacheEntry (now : Nat) (projectRoot : String) (fonts : List FontConfig)
    (results : List ProcessedFont) : CacheEntry :=
  { timestamp := now, configHash := generateConfigHash fonts,
    fonts := sanitizeResults projectRoot results, version := "1.0.0" }

/-! ## Claim-side auxiliary definitions and concrete scenarios -/

/-- Sort key abstraction for the findFontFiles comparator: latin subsets
are the low band, normal styles the low bit. -/
def fileKey (f : FontFile) : Nat :=
  (if f.subset = "latin" then 0 else 2) + (if f.style = "normal" then 0 else 1)

/-- Modelled from the spec: the request's default subset (the first
effective subset of step 1 of the resolver, defaulting to latin), used to
state the claimed default-subset-first ordering. -/
def specDefaultSubset (config : FontConfig) (metadata : FontMetadata) : String :=
  (((config.subsets <|> metadata.subsets).getD [("latin" : String)]).headD "latin")

/-- Pointwise permutation of an optional array field. -/
def OptPerm {α : Type} (a b : Option (List α)) : Prop :=
  match a, b with
  | none, none => True
  | some x, some y => x.Perm y
  | _, _ => False

/-- Two font configs that agree on every hashed scalar field and whose
array-valued fields are permutations of each other. -/
def ConfigFieldPerm (c c' : FontConfig) : Prop :=
  c.package = c'.package ∧ c.family = c'.family ∧ c.«variable» = c'.«variable» ∧
  OptPerm c.weights c'.weights ∧ OptPerm c.styles c'.styles ∧
  OptPerm c.subsets c'.subsets ∧ OptPerm c.axes c'.axes ∧
  c.preload = c'.preload ∧ c.display = c'.display ∧ c.priority = c'.priority

/-! ### The C1 end-to-end scenario: a variable-font request against a
package whose files directory holds exactly demo-latin-wght-normal.woff2 -/

/-- The C1 request. -/
def c1config : FontConfig :=
  { package := "pkg-a", family := "Demo", «variable» := true,
    weights := some [400, 700], styles := some [("normal" : String)],
    subsets := some [("latin" : String)], axes := some [("wght" : String)] }

/-- The C1 package metadata: a weight axis spanning the requested 400 to
700 range (the face block's weight range is read from the metadata's
wght axis). -/
def c1metadata : FontMetadata :=
  { family := "Demo", id := "demo", subsets := some [("latin" : String)],
    weights := some [400, 700], styles := some [("normal" : String)],
    variableAxes := some [("wght", ⟨400, 700, 400⟩)] }

/-- The C1 filesystem: the package directory and its files directory
exist, the directory lists exactly the one woff2 file, every file has
1000 bytes with content bytes 1, 2, 3. -/
def c1env : Env :=
  { pathExists := fun p =>
      p == "/proj/node_modules/pkg-a" || p == "/proj/node_modules/pkg-a/files",
    globSync := fun _ => [],
    metadataJson := fun p => if p == "/proj/node_modules/pkg-a" then some c1metadata else none,
    fontMetadataJson := fun _ => none,
    listDir := fun d =>
      if d == "/proj/node_modules/pkg-a/files" then [("demo-latin-wght-normal.woff2" : String)]
      else [],
    fileSize := fun _ => 1000,
    content := fun _ => [1, 2, 3] }

/-- The C1 module options (face blocks only; the auxiliary fallback face
is disabled so the stylesheet fragment under test is exactly the face
blocks of the published files). -/
def c1opts : ModuleOptions :=
  { fonts := [c1config], outputDir := some "public/fonts", display := some "swap",
    fallbacks := some false, customProperties := some false, utilities := some false }

/-- A representative md5 digest function for the concrete C1 run: the
actual truncated hex digest of the file's bytes is some fixed 8-character
hex string; its exact value affects no counted token. -/
def hC1 : List Nat → String := fun _ => "0a1b2c3d"

/-- The C1 run of processFont. -/
def c1result : Except String ProcessedFont := processFont c1env hC1 "/proj" c1opts c1config

/-- Number of published files of the C1 run. -/
def c1fileCount : Nat :=
  match c1result with
  | Except.ok r => r.files.length
  | Except.error _ => 0

/-- The face-block section of the stylesheet generated for the C1 run. -/
def c1css : String :=
  match c1result with
  | Except.ok r => generateFontFaces c1opts [r]
  | Except.error e => e

/-! ### Concrete inputs for the other claims' witnesses and
counterexamples -/

/-- A font config whose package cannot be located (C2's witness). -/
def c2cfg : FontConfig := { package := "missing-pkg", family := "Nope", «variable» := false }

/-- An environment where nothing exists (C2's witness). -/
def c2env : Env :=
  { pathExists := fun _ => false, globSync := fun _ => [],
    metadataJson := fun _ => none, fontMetadataJson := fun _ => none,
    listDir := fun _ => [], fileSize := fun _ => 0, content := fun _ => [] }

/-- Options holding only the missing-package font (C2's witness). -/
def c2opts : ModuleOptions := { fonts := [c2cfg] }

/-- Two C3 requests sharing the package identifier but differing in
family. -/
def c3a : FontConfig := { package := "a", family := "X", «variable» := false }

/-- See c3a. -/
def c3b : FontConfig := { package := "a", family := "Y", «variable» := false }

/-- C3 witness: distinct packages, weights listed in one order... -/
def c3l : List FontConfig :=
  [{ package := "a", family := "X", «variable» := false, weights := some [400, 700] },
   { package := "b", family := "Y", «variable» := true }]

/-- ...and the same list permuted with the weights array also permuted. -/
def c3l' : List FontConfig :=
  [{ package := "b", family := "Y", «variable» := true },
   { package := "a", family := "X", «variable» := false, weights := some [700, 400] }]

/-- The C4 request list the snapshot is written for. -/
def c4fonts : List FontConfig :=
  [{ package := "pkg-x", family := "X", «variable» := true, fallback := some "Arial" }]

/-- The same list after changing one request's fallback field. -/
def c4fonts2 : List FontConfig :=
  [{ package := "pkg-x", family := "X", «variable» := true, fallback := some "Georgia" }]

/-- The snapshot written by updateCache for c4fonts. -/
def c4entry : CacheEntry := updateCacheEntry 5000 "/proj" c4fonts []

/-- The cache environment of the immediately-following run: snapshot
present and fresh, no file modified. -/
def c4env : CacheEnv :=
  { cacheFile := some c4entry, now := 5000, metadataMtime := fun _ => none,
    fileExists := fun _ => true, cacheFileMtime := 5000 }

/-- A snapshot whose stored hash differs from c4fonts (C4 witness). -/
def c4entryOther : CacheEntry :=
  updateCacheEntry 5000 "/proj" [{ package := "pkg-y", family := "Y", «variable» := false }] []

/-- Cache environment holding that other snapshot (C4 witness). -/
def c4envOther : CacheEnv :=
  { cacheFile := some c4entryOther, now := 5000, metadataMtime := fun _ => none,
    fileExists := fun _ => true, cacheFileMtime := 5000 }

/-- Two resolved files with identical bytes, subset, style and extension
but different paths and names (C5's witness). -/
def c5file1 : FontFile :=
  { path := "/proj/a/x-latin-400-normal.woff2", fileName := "x-latin-400-normal.woff2",
    subset := "latin", style := "normal", weight := some 400 }

/-- See c5file1. -/
def c5file2 : FontFile :=
  { path := "/other/b/y-latin-400-normal.woff2", fileName := "y-latin-400-normal.woff2",
    subset := "latin", style := "normal", weight := some 400 }

/-- Two resolved C6 files, neither of the latin subset: the first listed
is greek, the second cyrillic. -/
def c6greek : FontFile :=
  { fileName := "x-greek-wght-normal.woff2", subset := "greek", style := "normal",
    «variable» := true }

/-- See c6greek. -/
def c6cyr : FontFile :=
  { fileName := "x-cyrillic-wght-normal.woff2", subset := "cyrillic", style := "normal",
    «variable» := true }

/-- A C6 request whose default (first effective) subset is cyrillic, not
latin. -/
def c6config : FontConfig :=
  { package := "pkg-c", family := "C", «variable» := true,
    subsets := some [("cyrillic" : String), ("greek" : String)] }

/-- A static config for the C8 witness. -/
def c8cfg : FontConfig := { package := "pkg-s", family := "S", «variable» := false }

/-! # Theorems -/

/-- Folding an append of singletons is a map (helper). -/
theorem foldl_push_map {α β : Type} (g : α → β) :
    ∀ (l : List α) (acc : List β), l.foldl (fun a c => a ++ [g c]) acc = acc ++ l.map g := by
  intro l
  induction l with
  | nil => intro acc; simp
  | cons x xs ih => intro acc; simp [ih]

/-- copyFontFiles is an independent per-file map (helper). -/
theorem copyFontFiles_eq_map (md5hex8 : List Nat → String) (content : String → List Nat)
    (outputDir : String) (files : List FontFile) (family : String) :
    copyFontFiles md5hex8 content outputDir files family =
      files.map (fun file =>
        { file with
          url := some ("/fonts/" ++ (jsSlug family ++ "-" ++ file.subset ++ "-" ++ file.style ++
            "-" ++ md5hex8 (content file.path) ++ extname file.fileName)),
          hash := some (md5hex8 (content file.path)) }) := by
  have h := foldl_push_map (fun file : FontFile =>
    { file with
      url := some ("/fonts/" ++ (jsSlug family ++ "-" ++ file.subset ++ "-" ++ file.style ++
        "-" ++ md5hex8 (content file.path) ++ extname file.fileName)),
      hash := some (md5hex8 (content file.path)) }) files []
  simpa [copyFontFiles] using h

/-- C10: for every resolved file list and every output directory value,
the published URLs are the literal /fonts/ prefix followed by the hashed
slug-subset-style-hash name; the output directory influences only the
copy destination, never the URL (the two runs below differ only in the
output directory and give identical URL lists). -/
theorem c10_url_independent_of_output_dir :
    ∀ (md5hex8 : List Nat → String) (content : String → List Nat)
      (d d' family : String) (files : List FontFile),
      (copyFontFiles md5hex8 content d files family).map FontFile.url =
        (copyFontFiles md5hex8 content d' files family).map FontFile.url ∧
      (copyFontFiles md5hex8 content d files family).map FontFile.url =
        files.map (fun file => some ("/fonts/" ++ (jsSlug family ++ "-" ++ file.subset ++ "-" ++
          file.style ++ "-" ++ md5hex8 (content file.path) ++ extname file.fileName))) := by
  intro md5hex8 content d d' family files
  rw [copyFontFiles_eq_map, copyFontFiles_eq_map]
  exact ⟨rfl, by rw [List.map_map]; rfl⟩

/-- C5: the published hash is the digest of the file's bytes alone, and
publishing is a per-file map, so runs on different machines (different
content lookup and output directory) over files with identical bytes,
family, subset, style and extension produce identical destination names
(URLs) and hashes. -/
theorem c5_publish_content_deterministic :
    (∀ (md5hex8 : List Nat → String) (content : String → List Nat) (d family : String)
        (files : List FontFile),
        copyFontFiles md5hex8 content d files family =
          files.map (fun file =>
            { file with
              url := some ("/fonts/" ++ (jsSlug family ++ "-" ++ file.subset ++ "-" ++
                file.style ++ "-" ++ md5hex8 (content file.path) ++ extname file.fileName)),
              hash := some (md5hex8 (content file.path)) })) ∧
    (∀ (md5hex8 : List Nat → String) (content content' : String → List Nat)
        (d d' family : String) (files files' : List FontFile),
        List.Forall₂ (fun f f' => content f.path = content' f'.path ∧ f.subset = f'.subset ∧
          f.style = f'.style ∧ extname f.fileName = extname f'.fileName) files files' →
        (copyFontFiles md5hex8 content d files family).map FontFile.url =
          (copyFontFiles md5hex8 content' d' files' family).map FontFile.url ∧
        (copyFontFiles md5hex8 content d files family).map FontFile.hash =
          (copyFontFiles md5hex8 content' d' files' family).map FontFile.hash) := by
  refine ⟨fun md5hex8 content d family files => copyFontFiles_eq_map _ _ _ _ _, ?_⟩
  intro md5hex8 content content' d d' family files files' hf
  rw [copyFontFiles_eq_map, copyFontFiles_eq_map]
  constructor
  · induction hf with
    | nil => rfl
    | cons h _ ih =>
      obtain ⟨h1, h2, h3, h4⟩ := h
      simp only [List.map_cons, ih, List.cons.injEq, and_true]
      rw [h1, h2, h3, h4]
  · induction hf with
    | nil => rfl
    | cons h _ ih =>
      obtain ⟨h1, h2, h3, h4⟩ := h
      simp only [List.map_cons, ih, List.cons.injEq, and_true]
      rw [h1]

/-- C5 witness: two files with the same bytes, subset, style and
extension but different paths and names publish under the same URL and
hash. -/
theorem c5_publish_content_deterministic_witness :
    (List.Forall₂ (fun f f' => (fun _ => [7, 7]) f.path = (fun _ => [7, 7]) f'.path ∧
        f.subset = f'.subset ∧ f.style = f'.style ∧
        extname f.fileName = extname f'.fileName) [c5file1] [c5file2]) ∧
    ((copyFontFiles (fun _ => "abcd1234") (fun _ => [7, 7]) "/proj/public/fonts" [c5file1]
        "Demo").map FontFile.url =
      (copyFontFiles (fun _ => "abcd1234") (fun _ => [7, 7]) "/elsewhere" [c5file2]
        "Demo").map FontFile.url) :=
  ⟨by constructor <;> first | (refine ⟨rfl, rfl, rfl, by decide⟩) | exact List.Forall₂.nil,
   (c5_publish_content_deterministic.2 _ _ _ _ _ _ _ _
      (by constructor <;> first | (refine ⟨rfl, rfl, rfl, by decide⟩) | exact List.Forall₂.nil)).1⟩

/-- C7: a non-empty custom fallback always becomes the returned fallback
stack, while the four numeric overrides are those the lookup returns
without a custom fallback, i.e. those of the matched tier (exact table
match, Variable-suffix-stripped match, or keyword category defaults). -/
theorem c7_custom_fallback_overrides_stack_only :
    ∀ (fontFamily custom : String), custom ≠ "" →
      (getFallbackMetricsForFont fontFamily (some custom)).fallback = custom ∧
      (getFallbackMetricsForFont fontFamily (some custom)).sizeAdjust =
        (getFallbackMetricsForFont fontFamily none).sizeAdjust ∧
      (getFallbackMetricsForFont fontFamily (some custom)).ascentOverride =
        (getFallbackMetricsForFont fontFamily none).ascentOverride ∧
      (getFallbackMetricsForFont fontFamily (some custom)).descentOverride =
        (getFallbackMetricsForFont fontFamily none).descentOverride ∧
      (getFallbackMetricsForFont fontFamily (some custom)).lineGapOverride =
        (getFallbackMetricsForFont fontFamily none).lineGapOverride := by
  intro fontFamily custom hc
  have hne : custom.data.isEmpty = false := by
    cases hdata : custom.data with
    | nil => exact absurd (by cases custom; simp_all) hc
    | cons c cs => simp
  have hd : custom.data ≠ [] := by simpa using hne
  have ht : strTruthy (some custom) = true := by simp [strTruthy, hne]
  have hshow : jsShow (some custom) = custom := rfl
  have hor : ∀ d, jsOrStr (some custom) d = custom := by intro d; simp [jsOrStr, hne]
  unfold getFallbackMetricsForFont
  cases h1 : lookupStr fontFamily fallbackMetrics with
  | some m => simp [h1, ht, hshow, strTruthy, hd]
  | none =>
    cases h2 : lookupStr (jsReplace fontFamily (" Variable") ("")) fallbackMetrics with
    | some m => simp [h1, h2, ht, hshow, strTruthy, hd]
    | none => simp only [h1, h2]; split_ifs <;> simp_all [hor]

/-- C7 witness: an exact-table family with a custom stack keeps the
table's numeric overrides. -/
theorem c7_custom_fallback_overrides_stack_only_witness :
    (("Custom A, sans-serif" : String) ≠ "") ∧
    (getFallbackMetricsForFont "Montserrat" (some "Custom A, sans-serif")).fallback =
      "Custom A, sans-serif" ∧
    (getFallbackMetricsForFont "Montserrat" (some "Custom A, sans-serif")).sizeAdjust =
      (getFallbackMetricsForFont "Montserrat" none).sizeAdjust :=
  ⟨by decide,
   (c7_custom_fallback_overrides_stack_only "Montserrat" "Custom A, sans-serif" (by decide)).1,
   (c7_custom_fallback_overrides_stack_only "Montserrat" "Custom A, sans-serif" (by decide)).2.1⟩

/-- C8: filename parsing drops the extension and splits on hyphens; an
extension other than woff/woff2 or fewer than three fields discards the
file; otherwise the style is the last field, the subset the
third-from-last, and for static requests only, the weight is the
second-from-last field as parsed by parseInt (none for a non-numeric
field, still yielding a descriptor). -/
theorem c8_parse_filename_grammar :
    ∀ (config : FontConfig) (filePath : String),
      (¬ (extname (basename filePath) = ".woff" ∨ extname (basename filePath) = ".woff2") →
        parseFileName config filePath = none) ∧
      (∀ parts, parts = jsSplit (strDropRight (basename filePath)
          (strLen (extname (basename filePath)))) ("-") →
        (parts.length < 3 → parseFileName config filePath = none) ∧
        ((extname (basename filePath) = ".woff" ∨ extname (basename filePath) = ".woff2") →
          3 ≤ parts.length →
          parseFileName config filePath = some
            { fileName := basename filePath,
              subset := parts.getD (parts.length - 3) "",
              style := parts.getD (parts.length - 1) "",
              weight := if config.«variable» then none
                else jsParseInt (parts.getD (parts.length - 2) ""),
              «variable» := config.«variable» })) := by
  intro config filePath
  constructor
  · intro hext
    simp only [parseFileName]
    split_ifs <;> first | rfl | tauto
  · intro parts hparts
    subst hparts
    constructor
    · intro hlen
      simp only [parseFileName]
      split_ifs <;> first | rfl | omega
    · intro hext hlen
      simp only [parseFileName]
      split_ifs <;> first | rfl | omega | tauto

/-- C8 witness: a static request on a four-field woff2 name parses into
the expected descriptor. -/
theorem c8_parse_filename_grammar_witness :
    ((("x-latin-400-normal.woff2" : String) = "x-latin-400-normal.woff2") ∧
      3 ≤ (jsSplit (strDropRight (basename "/p/files/x-latin-400-normal.woff2")
        (strLen (extname (basename "/p/files/x-latin-400-normal.woff2")))) ("-")).length) ∧
    parseFileName c8cfg "/p/files/x-latin-400-normal.woff2" = some
      { fileName := basename "/p/files/x-latin-400-normal.woff2",
        subset := ((jsSplit (strDropRight (basename "/p/files/x-latin-400-normal.woff2")
          (strLen (extname (basename "/p/files/x-latin-400-normal.woff2")))) ("-")).getD
          ((jsSplit (strDropRight (basename "/p/files/x-latin-400-normal.woff2")
          (strLen (extname (basename "/p/files/x-latin-400-normal.woff2")))) ("-")).length - 3) ""),
        style := ((jsSplit (strDropRight (basename "/p/files/x-latin-400-normal.woff2")
          (strLen (extname (basename "/p/files/x-latin-400-normal.woff2")))) ("-")).getD
          ((jsSplit (strDropRight (basename "/p/files/x-latin-400-normal.woff2")
          (strLen (extname (basename "/p/files/x-latin-400-normal.woff2")))) ("-")).length - 1) ""),
        weight := if c8cfg.«variable» then none
          else jsParseInt ((jsSplit (strDropRight (basename "/p/files/x-latin-400-normal.woff2")
            (strLen (extname (basename "/p/files/x-latin-400-normal.woff2")))) ("-")).getD
            ((jsSplit (strDropRight (basename "/p/files/x-latin-400-normal.woff2")
            (strLen (extname (basename "/p/files/x-latin-400-normal.woff2")))) ("-")).length - 2) ""),
        «variable» := c8cfg.«variable» } :=
  ⟨⟨rfl, by decide⟩,
   ((c8_parse_filename_grammar c8cfg "/p/files/x-latin-400-normal.woff2").2 _ rfl).2
     (Or.inr (by decide)) (by decide)⟩

/-- A successful processFont run keeps the requested config and reports
no errors (helper). -/
theorem processFont_ok_shape (env : Env) (md5hex8 : List Nat → String) (projectRoot : String)
    (options : ModuleOptions) (c : FontConfig) (r : ProcessedFont)
    (h : processFont env md5hex8 projectRoot options c = Except.ok r) :
    r.config = c ∧ r.errors = [] := by
  unfold processFont at h
  repeat' split at h
  all_goals first
    | exact Except.noConfusion h
    | (injection h with h'; subst h'; exact ⟨rfl, rfl⟩)

/-- processAll is the per-font map over the priority-sorted configs, each
entry being the successful result or the caught failed entry (helper). -/
theorem processAll_eq_map (env : Env) (md5hex8 : List Nat → String) (projectRoot : String)
    (options : ModuleOptions) :
    processAll env md5hex8 projectRoot options =
      (sortByPriorityDesc options.fonts).map (fun fontConfig =>
        match processFont env md5hex8 projectRoot options fontConfig with
        | Except.ok result => result
        | Except.error e => failedEntry fontConfig e) := by
  simp only [processAll]
  generalize sortByPriorityDesc options.fonts = l
  suffices h : ∀ (l : List FontConfig) (acc : List ProcessedFont),
      l.foldl (fun processedFonts fontConfig =>
        match processFont env md5hex8 projectRoot options fontConfig with
        | Except.ok result => processedFonts ++ [result]
        | Except.error e => processedFonts ++ [failedEntry fontConfig e]) acc =
        acc ++ l.map (fun fontConfig =>
          match processFont env md5hex8 projectRoot options fontConfig with
          | Except.ok result => result
          | Except.error e => failedEntry fontConfig e) by
    simpa using h l []
  intro l
  induction l with
  | nil => intro acc; simp
  | cons x xs ih =>
    intro acc
    cases hx : processFont env md5hex8 projectRoot options x <;> simp [hx, ih]

/-- C2: every entry of processAll is all-or-nothing: an entry with errors
has no files, and an entry without errors is exactly a fully resolved
processFont success for its config (so no entry ever carries both errors
and files). -/
theorem c2_entries_all_or_nothing :
    ∀ (env : Env) (md5hex8 : List Nat → String) (projectRoot : String)
      (options : ModuleOptions) (p : ProcessedFont),
      p ∈ processAll env md5hex8 projectRoot options →
      (p.errors ≠ [] → p.files = []) ∧
      (p.errors = [] → processFont env md5hex8 projectRoot options p.config = Except.ok p) := by
  intro env md5hex8 projectRoot options p hp
  rw [processAll_eq_map] at hp
  obtain ⟨c, _, hc⟩ := List.mem_map.mp hp
  cases hx : processFont env md5hex8 projectRoot options c with
  | ok r =>
    rw [hx] at hc
    obtain ⟨hcfg, herr⟩ := processFont_ok_shape env md5hex8 projectRoot options c r hx
    subst hc
    constructor
    · intro hne; exact absurd herr hne
    · intro _; rw [hcfg]; exact hx
  | error e =>
    rw [hx] at hc
    subst hc
    exact ⟨fun _ => rfl, fun he => by simp [failedEntry] at he⟩

/-- C2 witness: the failed entry of a missing package is in the batch
result, has no files, and its errors are non-empty. -/
theorem c2_entries_all_or_nothing_witness :
    (failedEntry c2cfg ("Package missing-pkg not found. " ++
        "Please install it with: npm install missing-pkg") ∈
      processAll c2env (fun _ => "") "/proj" c2opts) ∧
    (failedEntry c2cfg ("Package missing-pkg not found. " ++
        "Please install it with: npm install missing-pkg")).files = [] :=
  ⟨by decide,
   ((c2_entries_all_or_nothing c2env (fun _ => "") "/proj" c2opts _ (by decide)).1
     (by decide))⟩

/-- C9: processing is per font: the batch result is exactly the map of
per-font outcomes over the priority-sorted request list, a failure of one
font becoming that font's failed entry (its message recorded in errors)
without affecting any other entry, and the result carries one entry per
configured font (its configs are a permutation of the input). -/
theorem c9_per_font_failures_isolated :
    ∀ (env : Env) (md5hex8 : List Nat → String) (projectRoot : String)
      (options : ModuleOptions),
      processAll env md5hex8 projectRoot options =
        (sortByPriorityDesc options.fonts).map (fun fontConfig =>
          match processFont env md5hex8 projectRoot options fontConfig with
          | Except.ok result => result
          | Except.error e => failedEntry fontConfig e) ∧
      ((processAll env md5hex8 projectRoot options).map ProcessedFont.config).Perm
        options.fonts := by
  intro env md5hex8 projectRoot options
  refine ⟨processAll_eq_map env md5hex8 projectRoot options, ?_⟩
  rw [processAll_eq_map, List.map_map]
  have hid : ((sortByPriorityDesc options.fonts).map (ProcessedFont.config ∘ fun fontConfig =>
      match processFont env md5hex8 projectRoot options fontConfig with
      | Except.ok result => result
      | Except.error e => failedEntry fontConfig e)) =
      (sortByPriorityDesc options.fonts).map id := by
    apply List.map_congr_left
    intro c _
    cases hx : processFont env md5hex8 projectRoot options c with
    | ok r =>
      simp only [Function.comp_apply, id_eq, hx]
      exact (processFont_ok_shape env md5hex8 projectRoot options c r hx).1
    | error e => simp [Function.comp_apply, id_eq, hx, failedEntry]
  rw [hid, List.map_id]
  exact List.perm_insertionSort _ options.fonts

/-- The findFontFiles comparator is nonpositive exactly when the
latin-then-normal sort key is nondecreasing (helper). -/
theorem fontFileCompare_nonpos_iff (a b : FontFile) :
    fontFileCompare a b ≤ 0 ↔ fileKey a ≤ fileKey b := by
  unfold fontFileCompare fileKey
  by_cases h1 : a.subset = "latin" <;> by_cases h2 : b.subset = "latin" <;>
    by_cases h3 : a.style = "normal" <;> by_cases h4 : b.style = "normal" <;>
    simp [h1, h2, h3, h4]

instance : IsTotal FontFile (fun a b => fontFileCompare a b ≤ 0) :=
  ⟨fun a b => by
    rw [fontFileCompare_nonpos_iff, fontFileCompare_nonpos_iff]
    exact le_total _ _⟩

instance : IsTrans FontFile (fun a b => fontFileCompare a b ≤ 0) :=
  ⟨fun a b c hab hbc => by
    rw [fontFileCompare_nonpos_iff] at hab hbc ⊢
    omega⟩

/-- Inserting into a list permutes only across strictly smaller keys, so
per-key filters gain the inserted element at the front when it has the
key and are untouched otherwise (helper). -/
theorem filter_orderedInsert_key (k : Nat) (x : FontFile) :
    ∀ l : List FontFile,
      (List.orderedInsert (fun a b => fontFileCompare a b ≤ 0) x l).filter
          (fun f => fileKey f == k) =
        if fileKey x = k then x :: l.filter (fun f => fileKey f == k)
        else l.filter (fun f => fileKey f == k) := by
  intro l
  induction l with
  | nil =>
    simp only [List.orderedInsert, List.filter]
    by_cases hk : fileKey x = k
    · have hb : (fileKey x == k) = true := by simpa using hk
      simp [hb, hk]
    · have hb : (fileKey x == k) = false := by simpa using hk
      simp [hb, hk]
  | cons y ys ih =>
    simp only [List.orderedInsert]
    by_cases hr : fontFileCompare x y ≤ 0
    · rw [if_pos hr]
      by_cases hk : fileKey x = k <;> simp [List.filter_cons, hk]
    · rw [if_neg hr]
      have hyx : fileKey y < fileKey x := by
        rw [← not_le, ← fontFileCompare_nonpos_iff]; exact hr
      by_cases hk : fileKey x = k
      · have hyk : ¬ fileKey y = k := by omega
        simp [List.filter_cons, hk, hyk, ih]
      · by_cases hyk : fileKey y = k <;> simp [List.filter_cons, hk, hyk, ih]

/-- C6 (amended to the literal latin constant the comparator uses): the
resolver's sort is nondecreasing in the key that puts latin-subset files
before all other subsets and, within each band, normal styles before
others; so every latin/normal file precedes every non-latin or
non-normal file.  Within one key class the original order is kept: the
per-key filters of the output equal those of the input (stability). -/
theorem c6_sort_latin_normal_first_stable :
    ∀ l : List FontFile,
      List.Sorted (fun a b => fileKey a ≤ fileKey b) (sortFontFiles l) ∧
      ∀ k : Nat, (sortFontFiles l).filter (fun f => fileKey f == k) =
        l.filter (fun f => fileKey f == k) := by
  intro l
  constructor
  · have h := List.sorted_insertionSort (fun a b => fontFileCompare a b ≤ 0) l
    exact h.imp (fun hab => (fontFileCompare_nonpos_iff _ _).1 hab)
  · intro k
    induction l with
    | nil => rfl
    | cons x xs ih =>
      simp only [sortFontFiles, List.insertionSort] at ih ⊢
      rw [filter_orderedInsert_key]
      by_cases hk : fileKey x = k <;> simp [List.filter_cons, hk, ih]

/-- C6 counterexample: the claim orders by the request's default subset,
but the comparator hardcodes latin.  For a request whose default
(first effective) subset is cyrillic, a greek/normal file listed before a
cyrillic/normal file stays first, so the default-subset file does not
precede files of other subsets. -/
theorem c6_sort_default_subset_counterexample :
    sortFontFiles [c6greek, c6cyr] = [c6greek, c6cyr] ∧
    specDefaultSubset c6config {} = "cyrillic" ∧
    c6greek.subset = "greek" ∧ c6cyr.subset = "cyrillic" := by
  refine ⟨?_, by decide, by decide, by decide⟩
  decide

/-- Sorting integers is permutation-invariant (helper). -/
theorem sortInts_perm_eq {x y : List Int} (h : x.Perm y) : sortInts x = sortInts y :=
  List.eq_of_perm_of_sorted
    ((List.perm_insertionSort _ x).trans (h.trans (List.perm_insertionSort _ y).symm))
    (List.sorted_insertionSort _ x) (List.sorted_insertionSort _ y)

/-- The code-unit comparison is total (helper). -/
theorem charLeB_total : ∀ a b : List Char, charLeB a b = true ∨ charLeB b a = true := by
  intro a
  induction a with
  | nil => intro b; exact Or.inl rfl
  | cons x xs ih =>
    intro b
    cases b with
    | nil => exact Or.inr rfl
    | cons y ys =>
      simp only [charLeB]
      by_cases h1 : x.toNat < y.toNat
      · left; simp [h1]
      · by_cases h2 : y.toNat < x.toNat
        · right; simp [h1, h2]
        · simpa [h1, h2] using ih ys

/-- The code-unit comparison is transitive (helper). -/
theorem charLeB_trans : ∀ a b c : List Char,
    charLeB a b = true → charLeB b c = true → charLeB a c = true := by
  intro a
  induction a with
  | nil => intro b c _ _; rfl
  | cons x xs ih =>
    intro b c hab hbc
    cases b with
    | nil => simp [charLeB] at hab
    | cons y ys =>
      cases c with
      | nil => simp [charLeB] at hbc
      | cons z zs =>
        simp only [charLeB] at hab hbc ⊢
        by_cases h1 : x.toNat < y.toNat
        · by_cases h3 : y.toNat < z.toNat
          · have h5 : x.toNat < z.toNat := by omega
            simp [h5]
          · by_cases h4 : z.toNat < y.toNat
            · simp [h3, h4] at hbc
            · have h5 : x.toNat < z.toNat := by omega
              simp [h5]
        · by_cases h2 : y.toNat < x.toNat
          · simp [h1, h2] at hab
          · have hab' : charLeB xs ys = true := by simpa [h1, h2] using hab
            by_cases h3 : y.toNat < z.toNat
            · have h5 : x.toNat < z.toNat := by omega
              simp [h5]
            · by_cases h4 : z.toNat < y.toNat
              · simp [h3, h4] at hbc
              · have hbc' : charLeB ys zs = true := by simpa [h3, h4] using hbc
                have h5 : ¬ x.toNat < z.toNat := by omega
                have h6 : ¬ z.toNat < x.toNat := by omega
                simp [h5, h6]
                exact ih ys zs hab' hbc'

/-- The code-unit comparison is antisymmetric (helper). -/
theorem charLeB_antisymm : ∀ a b : List Char,
    charLeB a b = true → charLeB b a = true → a = b := by
  intro a
  induction a with
  | nil =>
    intro b _ h2
    cases b with
    | nil => rfl
    | cons y ys => simp [charLeB] at h2
  | cons x xs ih =>
    intro b h1 h2
    cases b with
    | nil => simp [charLeB] at h1
    | cons y ys =>
      simp only [charLeB] at h1 h2
      by_cases hxy : x.toNat < y.toNat
      · have hn : ¬ y.toNat < x.toNat := by omega
        simp [hxy, hn] at h2
      · by_cases hyx : y.toNat < x.toNat
        · simp [hxy, hyx] at h1
        · have htn : x.toNat = y.toNat := by omega
          have hchar : x = y := by
            have h := congrArg Char.ofNat htn
            rwa [Char.ofNat_toNat, Char.ofNat_toNat] at h
          subst hchar
          rw [ih ys (by simpa [hxy, hyx] using h1) (by simpa [hxy, hyx] using h2)]

instance : IsTotal String (fun a b => strLeB a b = true) :=
  ⟨fun a b => charLeB_total a.data b.data⟩

instance : IsTrans String (fun a b => strLeB a b = true) :=
  ⟨fun _ _ _ hab hbc => charLeB_trans _ _ _ hab hbc⟩

instance : IsAntisymm String (fun a b => strLeB a b = true) :=
  ⟨fun a b h1 h2 => by
    cases a; cases b
    exact congrArg String.mk (charLeB_antisymm _ _ h1 h2)⟩

/-- Sorting strings is permutation-invariant (helper). -/
theorem sortStrings_perm_eq {x y : List String} (h : x.Perm y) : sortStrings x = sortStrings y :=
  List.eq_of_perm_of_sorted
    ((List.perm_insertionSort _ x).trans (h.trans (List.perm_insertionSort _ y).symm))
    (List.sorted_insertionSort _ x) (List.sorted_insertionSort _ y)

instance : IsTotal NormalizedEntry (fun a b => strLeB a.package b.package = true) :=
  ⟨fun a b => charLeB_total a.package.data b.package.data⟩

instance : IsTrans NormalizedEntry (fun a b => strLeB a.package b.package = true) :=
  ⟨fun _ _ _ hab hbc => charLeB_trans _ _ _ hab hbc⟩

instance : IsAntisymm NormalizedEntry
    (fun a b => strLeB a.package b.package = true ∧ a.package ≠ b.package) :=
  ⟨fun a b h1 h2 => absurd (antisymm (r := fun a b : String => strLeB a b = true) h1.1 h2.1)
    h1.2⟩

/-- C3 (amended): the normalization is invariant under permuting each
request's array-valued fields, and the hash is invariant under
permutations of the request list provided the package identifiers are
pairwise distinct (the sort key is the package name alone, so two
requests sharing a package keep their stable original order and a swap
of unequal such requests changes the hashed string; see the
counterexample). -/
theorem c3_hash_order_invariant_distinct_packages :
    (∀ c c' : FontConfig, ConfigFieldPerm c c' → normalizeEntry c = normalizeEntry c') ∧
    (∀ l l' : List FontConfig,
      (l.map normalizeEntry).Perm (l'.map normalizeEntry) →
      (l'.map (fun f => f.package)).Nodup →
      generateConfigHash l = generateConfigHash l') := by
  constructor
  · intro c c' hperm
    obtain ⟨h1, h2, h3, h4, h5, h6, h7, h8, h9, h10⟩ := hperm
    unfold normalizeEntry
    have hw : sortedOptInts c.weights = sortedOptInts c'.weights := by
      unfold OptPerm at h4
      cases hw1 : c.weights <;> cases hw2 : c'.weights <;> rw [hw1, hw2] at h4 <;>
        simp_all [sortedOptInts]
      exact sortInts_perm_eq h4
    have hs : sortedOptStrs c.styles = sortedOptStrs c'.styles := by
      unfold OptPerm at h5
      cases hw1 : c.styles <;> cases hw2 : c'.styles <;> rw [hw1, hw2] at h5 <;>
        simp_all [sortedOptStrs]
      exact sortStrings_perm_eq h5
    have hsub : sortedOptStrs c.subsets = sortedOptStrs c'.subsets := by
      unfold OptPerm at h6
      cases hw1 : c.subsets <;> cases hw2 : c'.subsets <;> rw [hw1, hw2] at h6 <;>
        simp_all [sortedOptStrs]
      exact sortStrings_perm_eq h6
    have hax : sortedOptStrs c.axes = sortedOptStrs c'.axes := by
      unfold OptPerm at h7
      cases hw1 : c.axes <;> cases hw2 : c'.axes <;> rw [hw1, hw2] at h7 <;>
        simp_all [sortedOptStrs]
      exact sortStrings_perm_eq h7
    rw [h1, h2, h3, hw, hs, hsub, hax, h8, h9, h10]
  · intro l l' hp hnd
    have hsorted : sortNormalized (l.map normalizeEntry) =
        sortNormalized (l'.map normalizeEntry) := by
      have hperm : (sortNormalized (l.map normalizeEntry)).Perm
          (sortNormalized (l'.map normalizeEntry)) :=
        ((List.perm_insertionSort _ _).trans hp).trans (List.perm_insertionSort _ _).symm
      have hndpkg : (l'.map normalizeEntry).Pairwise (fun a b => a.package ≠ b.package) := by
        have : ((l'.map normalizeEntry).map (fun e => e.package)).Nodup := by
          rw [List.map_map]
          simpa [Function.comp, normalizeEntry] using hnd
        exact (List.pairwise_map.mp this)
      have hnd2 : (sortNormalized (l'.map normalizeEntry)).Pairwise
          (fun a b => a.package ≠ b.package) :=
        hndpkg.perm (List.perm_insertionSort _ _).symm (fun h => Ne.symm h)
      have hnd1 : (sortNormalized (l.map normalizeEntry)).Pairwise
          (fun a b => a.package ≠ b.package) :=
        hnd2.perm hperm.symm (fun h => Ne.symm h)
      have hs1 : (sortNormalized (l.map normalizeEntry)).Pairwise
          (fun a b => strLeB a.package b.package = true) :=
        List.sorted_insertionSort _ _
      have hs2 : (sortNormalized (l'.map normalizeEntry)).Pairwise
          (fun a b => strLeB a.package b.package = true) :=
        List.sorted_insertionSort _ _
      exact List.eq_of_perm_of_sorted (r := fun a b : NormalizedEntry =>
        strLeB a.package b.package = true ∧ a.package ≠ b.package) hperm
        (hs1.and hnd1) (hs2.and hnd2)
    show "[" ++ joinSep (",") ((sortNormalized (l.map normalizeEntry)).map entryJson) ++ "]" =
      "[" ++ joinSep (",") ((sortNormalized (l'.map normalizeEntry)).map entryJson) ++ "]"
    rw [hsorted]

/-- C3 witness: permuting a two-request list with distinct packages and
permuting one request's weights array leaves the hash unchanged. -/
theorem c3_hash_order_invariant_distinct_packages_witness :
    ((c3l.map normalizeEntry).Perm (c3l'.map normalizeEntry) ∧
      (c3l'.map (fun f => f.package)).Nodup) ∧
    generateConfigHash c3l = generateConfigHash c3l' :=
  ⟨⟨by decide, by decide⟩,
   c3_hash_order_invariant_distinct_packages.2 c3l c3l' (by decide) (by decide)⟩

/-- C3 counterexample: two requests with the same package identifier but
different families; swapping them is a permutation of the request list,
yet the stable package-keyed sort keeps them in input order, so the
normalized serialization (and hence the hash) differs. -/
theorem c3_hash_order_invariant_counterexample :
    List.Perm [c3a, c3b] [c3b, c3a] ∧
    generateConfigHash [c3a, c3b] ≠ generateConfigHash [c3b, c3a] := by
  exact ⟨by decide, by decide⟩

/-- C4 (amended): a change to a request list that alters the normalized
configuration hash makes isValid false (changes to the fallback or
unicodeRanges fields, and pure reorderings of the array fields, are not
part of the hash and are not detected; see the counterexample); and on an
immediately repeated run, with the snapshot present at the current
version, within its TTL, the same request hash, and no source file
modified, isValid is true. -/
theorem c4_invalidate_on_hashed_change_valid_on_rerun :
    (∀ (env : CacheEnv) (ttl : Nat) (fonts : List FontConfig) (cache : CacheEntry),
        env.cacheFile = some cache →
        generateConfigHash fonts ≠ cache.configHash →
        isCacheValid env ttl fonts = false) ∧
    (∀ (env : CacheEnv) (ttl : Nat) (fonts : List FontConfig) (cache : CacheEntry),
        env.cacheFile = some cache →
        cache.version = "1.0.0" →
        env.now - cache.timestamp ≤ ttl →
        cache.configHash = generateConfigHash fonts →
        checkFilesModified env cache.fonts = false →
        isCacheValid env ttl fonts = true) := by
  constructor
  · intro env ttl fonts cache hfile hhash
    simp only [isCacheValid, hfile]
    split_ifs <;> first | rfl | tauto
  · intro env ttl fonts cache hfile hver httl hhash hmod
    simp only [isCacheValid, hfile]
    rw [if_neg (by simp [hver]), if_neg (by omega), if_neg (by simp [hhash]),
      if_neg (by simp [hmod])]

/-- C4 witness: against a snapshot for a different configuration the
check is false, and the immediately repeated unchanged run is true. -/
theorem c4_invalidate_on_hashed_change_valid_on_rerun_witness :
    (c4envOther.cacheFile = some c4entryOther ∧
      generateConfigHash c4fonts ≠ c4entryOther.configHash) ∧
    isCacheValid c4envOther 86400000 c4fonts = false ∧
    isCacheValid c4env 86400000 c4fonts = true :=
  ⟨⟨rfl, by decide⟩,
   c4_invalidate_on_hashed_change_valid_on_rerun.1 c4envOther 86400000 c4fonts c4entryOther
     rfl (by decide),
   c4_invalidate_on_hashed_change_valid_on_rerun.2 c4env 86400000 c4fonts c4entry
     rfl rfl (by decide) (by decide) (by decide)⟩

/-- C4 counterexample: changing one request's fallback field (a field of
the FontRequest record) to a different value leaves the snapshot valid:
isValid returns true, not false, because the fallback field is not
hashed. -/
theorem c4_field_change_not_detected_counterexample :
    c4fonts ≠ c4fonts2 ∧
    c4entry.configHash = generateConfigHash c4fonts ∧
    isCacheValid c4env 86400000 c4fonts2 = true := by
  refine ⟨by decide, rfl, by decide⟩

/-- C1 (amended): on the end-to-end scenario the axes-joined pattern and
the per-axis fallback pattern coincide for the single wght axis, so the
one file is matched twice and the pipeline publishes two identical
PublishedFile entries (not one), both with URL
/fonts/demo-latin-normal-(hash).woff2 where the hash is the digest of the
file bytes (stated for every digest function); the stylesheet accordingly
contains two identical face blocks, each with the font-weight 400 700
range and the woff2-variations format token. -/
theorem c1_end_to_end_duplicate_publish :
    (∀ md5hex8 : List Nat → String,
      (processFont c1env md5hex8 "/proj" c1opts c1config).map
          (fun r => r.files.map FontFile.url) =
        Except.ok [some ("/fonts/demo-latin-normal-" ++ md5hex8 [1, 2, 3] ++ ".woff2"),
                   some ("/fonts/demo-latin-normal-" ++ md5hex8 [1, 2, 3] ++ ".woff2")]) ∧
    c1fileCount = 2 ∧
    countOccur c1css ("@font-face \x7b") = 2 ∧
    countOccur c1css ("font-weight: 400 700;") = 2 ∧
    countOccur c1css ("format(\x27woff2-variations\x27)") = 2 :=
  ⟨fun md5hex8 => rfl, by decide, by decide, by decide, by decide⟩

/-- C1 counterexample: the pipeline does not produce exactly one
PublishedFile on the scenario; it produces two (the file is matched by
the duplicated pattern twice). -/
theorem c1_exactly_one_published_counterexample :
    c1fileCount ≠ 1 ∧ c1fileCount = 2 := by
  exact ⟨by decide, by decide⟩

end VarFonts
